import Mathlib

/-!
Verification development for the `python_logo` interpreter
(`src/python_logo/interpreter.py`).  The interpreter walks a parsed
command tree (Python dicts and lists), keeps an execution context
(`_variables`, `_fuctions`, `_lists`, `_colors`) and lazily yields
primitive drawing commands.

Embedding notes.
* Python floats are modelled as rationals (`ℚ`); every number that the
  repository's programs and tests manipulate is exact in this fragment.
* Python dict field accesses are modelled with `Option` fields: a `none`
  field raises `Err.pyKeyError`, exactly where the source raises
  `KeyError`, and the surrounding handlers translate it the way the
  source's `try/except KeyError` blocks do.
* Python list objects are mutable and aliased (`_handle_list_make`
  stores the tree's literal list object itself into `self._lists`), so
  list objects live in an explicit heap `St.listHeap`; a tree's
  `list_make` node holds the heap address of its literal.  A `setpos`
  node's mutable `x`/`y` fields live in `St.posHeap` for the same
  reason (`_interpret` overwrites `command["x"]` / `command["y"]`).
* Recursion depth is modelled with fuel: exhaustion is
  `Err.recursionError`, matching Python's `RecursionError` for
  unbounded recursion.  The semantics is realised as a plain `Nat.rec`
  tower, so all closed programs evaluate by `rfl`/`decide`.
-/

namespace PyLogo

/-- Python values and expression trees that occur in a parsed Logo tree.
Floats are `num`, strings are `str` (identifiers, `"true"`/`"false"`,
and the `""` placeholder `_handle_func_def` stores), Python `bool` and
`None` results are `pybool`/`pynone`, and dict expressions are `binop`
(with `op`/`left`/`right` keys), `neg`, `logic` (`and`/`or` with a
`list` key), `lnot` (`not` with an `expr` key) and `listq`
(a dict whose `name` key is `"list"`, as consumed by `_handle_list`). -/
inductive Expr where
  | num (q : ℚ)
  | str (s : String)
  | pybool (b : Bool)
  | pynone
  | binop (op : String) (left right : Expr)
  | neg (value : Expr)
  | logic (op : String) (args : List Expr)
  | lnot (e : Expr)
  | listq (listName : Option String) (function : Option String)
      (index : Option Expr) (value : Option Expr)

/-- The `"list"` field of a `list_make` command: either the string
sentinel `"empty"` or a Python list object, i.e. an address into the
list heap (the tree's literal list object itself). -/
inductive MakeList where
  | emptyStr
  | addr (a : Nat)

/-- Command nodes, one constructor per arm of the `match name:` dispatch
in `Interpreter._interpret`.  `Option` fields model possibly missing
dict keys.  `setpos` nodes carry the address of their mutable
`x`/`y` fields, and `plain` covers
`hideturtle | showturtle | penup | pendown`. -/
inductive Cmd where
  | funcDef (funcName : Option String) (arguments : Option (List String))
      (commands : Option (List Cmd))
  | funcCall (funcName : Option String) (arguments : Option (List Expr))
  | make (varName : Option String) (value : Option Expr)
  | listMake (listName : Option String) (list : Option MakeList)
  | listOp (listName : Option String) (function : Option String)
      (index : Option Expr) (value : Option Expr)
  | repeatC (value : Option Expr) (commands : Option (List Cmd))
  | ifC (condition : Option Expr) (commands : Option (List Cmd))
      (elseCommands : Option (List Cmd))
  | movement (name : String) (value : Option Expr)
  | plain (name : String)
  | setpos (a : Nat)
  | setpencolor (color : Option String)
  | setpensize (value : Option Expr)
  | printC (value : Option Expr)
  | unknown (name : String)

/-- A `_fuctions` table entry (the source's spelling): the ordered
`arguments` dict (parameter name to currently stored value, `""`
right after `func_def`) and the stored body. -/
structure FuncData where
  arguments : List (String × Expr)
  commands : List Cmd

/-- The execution context of one `Interpreter` instance: `_variables`,
`_fuctions` and `_lists` (insertion-ordered dicts as association
lists), plus the heap of Python list objects and of `setpos` node
fields that the tree shares with the context. -/
structure St where
  vars : List (String × Expr)
  fuctions : List (String × FuncData)
  lists : List (String × Nat)
  listHeap : List (List Expr)
  posHeap : List (Expr × Expr)

/-- Yielded primitive commands.  `flat` is the freshly built
`{"name": ..., "value": ...}` record of the movement, `setpensize`
and `print` handlers; `plain`, `penColor` and `setposRef` are the
tree nodes yielded unchanged (`setposRef` by address, since the node
is mutable and shared with the tree). -/
inductive Out where
  | flat (name : String) (value : Expr)
  | plain (name : String)
  | penColor (color : String)
  | setposRef (a : Nat)

/-- Interpreter outcomes: the structured errors of
`python_logo.exceptions` plus the raw Python exceptions the code can
leak (`KeyError`, `UnboundLocalError`, `ValueError`, `TypeError`,
`IndexError`, `ZeroDivisionError`, `RecursionError`).
`functionExecutionError` preserves its cause.
`unmodeledPower` marks `**` with a non-integer exponent, whose float
result is outside the exact-rational value model. -/
inductive Err where
  | invalidTree
  | invalidCommand
  | unboundVariable (name : String)
  | unboundVariableList
  | undefinedFunction (name : String)
  | invalidFunctionArguments (funcName : String) (expected received : Nat)
  | invalidColor (color : String) (supportedColors : List String)
  | functionExecutionError (funcName : String) (inner : Err)
  | pyKeyError
  | pyNameError (name : String)
  | pyValueError
  | pyTypeError
  | pyIndexError
  | pyZeroDivisionError
  | recursionError
  | unmodeledPower
  deriving DecidableEq, Repr

/-- First-match lookup in an insertion-ordered dict. -/
def alGet? {α : Type} : List (String × α) → String → Option α
  | [], _ => none
  | (k, v) :: rest, key => if k = key then some v else alGet? rest key

/-- Python dict assignment: replace in place if the key exists
(keeping its position, as Python dicts do), else append. -/
def alSet {α : Type} : List (String × α) → String → α → List (String × α)
  | [], key, v => [(key, v)]
  | (k, w) :: rest, key, v =>
      if k = key then (k, v) :: rest else (k, w) :: alSet rest key v

/-- The source's `self._fuctions[func_name]["arguments"][arg_name] = v`:
update one argument slot of the shared function-table entry. -/
def setFuncArg (fs : List (String × FuncData)) (fn k : String) (v : Expr) :
    List (String × FuncData) :=
  fs.map fun p =>
    if p.1 = fn then (p.1, ⟨alSet p.2.arguments k v, p.2.commands⟩) else p

/-- The identifier scan in `_evaluate`: iterate over every entry of
`self._fuctions` (in insertion order) and return the first stored
argument value whose name matches — regardless of which function, if
any, is currently executing. -/
def scanFuncArgs : List (String × FuncData) → String → Option Expr
  | [], _ => none
  | (_, fd) :: rest, x =>
      match alGet? fd.arguments x with
      | some v => some v
      | none => scanFuncArgs rest x

/-- A dict field access `command[key]`: a missing key raises `KeyError`. -/
def getField {α : Type} : Option α → Except Err α
  | some a => .ok a
  | none => .error .pyKeyError

/-- Python `int()` truncates toward zero. -/
def truncInt (q : ℚ) : Int := Int.tdiv q.num (q.den : Int)

/-- Python `int(x)` on the values the interpreter passes it: floats
truncate, bools become 0/1, strings must spell an integer literal
(else `ValueError`), anything else is a `TypeError`. -/
def pyInt : Expr → Except Err Int
  | .num q => .ok (truncInt q)
  | .pybool b => .ok (if b then 1 else 0)
  | .str s =>
      match s.toInt? with
      | some i => .ok i
      | none => .error .pyValueError
  | _ => .error .pyTypeError

/-- Python `==` on the values `_evaluate` can produce: numbers compare
numerically, `True`/`False` compare as 1/0 against numbers, strings
compare as strings, `None` only equals `None`, and values of
unrelated types are unequal. -/
def pyEq : Expr → Expr → Bool
  | .num a, .num b => a = b
  | .pybool a, .pybool b => a = b
  | .pybool a, .num b => (if a then (1 : ℚ) else 0) = b
  | .num a, .pybool b => a = (if b then (1 : ℚ) else 0)
  | .str a, .str b => a = b
  | .pynone, .pynone => true
  | _, _ => false

/-- Numeric coercion for arithmetic and ordering: floats are
themselves, bools are 0/1, anything else raises `TypeError`
(the reachable offenders are strings and `None`). -/
def toNum : Expr → Except Err ℚ
  | .num q => .ok q
  | .pybool b => .ok (if b then 1 else 0)
  | _ => .error .pyTypeError

/-- Python truthiness of the values the interpreter can test:
nonzero numbers, `True`, and nonempty strings are truthy. -/
def truthy : Expr → Bool
  | .num q => decide (q ≠ 0)
  | .pybool b => b
  | .str s => decide (s ≠ "")
  | .pynone => false
  | _ => true

/-- The twelve binary operators of `_evaluate`'s dict dispatch. -/
def binOps : List String :=
  ["+", "-", "*", "/", "^", ">", ">=", "<", "<=", "=", "<>"]

/-- Apply one recognized binary operator to two evaluated operands. -/
def applyBin (op : String) (a b : Expr) : Except Err Expr :=
  match op with
  | "+" => do let x ← toNum a; let y ← toNum b; .ok (.num (x + y))
  | "-" => do let x ← toNum a; let y ← toNum b; .ok (.num (x - y))
  | "*" => do let x ← toNum a; let y ← toNum b; .ok (.num (x * y))
  | "/" => do
      let x ← toNum a; let y ← toNum b
      if y = 0 then .error .pyZeroDivisionError else .ok (.num (x / y))
  | "^" => do
      let x ← toNum a; let y ← toNum b
      if y.den = 1 then
        if x = 0 ∧ y.num < 0 then .error .pyZeroDivisionError
        else .ok (.num (x ^ y.num))
      else .error .unmodeledPower
  | ">" => do let x ← toNum a; let y ← toNum b; .ok (.pybool (decide (x > y)))
  | ">=" => do let x ← toNum a; let y ← toNum b; .ok (.pybool (decide (x ≥ y)))
  | "<" => do let x ← toNum a; let y ← toNum b; .ok (.pybool (decide (x < y)))
  | "<=" => do let x ← toNum a; let y ← toNum b; .ok (.pybool (decide (x ≤ y)))
  | "=" => .ok (.pybool (pyEq a b))
  | "<>" => .ok (.pybool (!pyEq a b))
  | _ => .error .invalidCommand

/-- Resolve a Python sequence index `i` against a list of length `n`:
negative indices count from the end, out-of-range is `none`
(an `IndexError` at the use sites). -/
def pyIndex (n : Nat) (i : Int) : Option Nat :=
  let j := if i < 0 then i + n else i
  if 0 ≤ j ∧ j < (n : Int) then some j.toNat else none

/-- The insertion point of `list.insert`: clamped to `[0, n]`,
negative indices counting from the end. -/
def pyInsertIdx (n : Nat) (i : Int) : Nat :=
  (if i < 0 then max ((n : Int) + i) 0 else min i (n : Int)).toNat

/-- The type of the evaluator one recursion level down. -/
abbrev Ev := St → Expr → Except Err (Expr × St)

/-- The type of the interpreter one recursion level down. -/
abbrev Interp := List Cmd → St → Except Err (List Out × St)

/-- Python's `all(self._evaluate(expr) for expr in value["list"])`:
evaluate operands left to right, stopping at the first falsy one. -/
def evalAllWith (ev : Ev) : St → List Expr → Except Err (Expr × St)
  | s, [] => .ok (.pybool true, s)
  | s, e :: rest => do
      let (v, s1) ← ev s e
      if truthy v then evalAllWith ev s1 rest else .ok (.pybool false, s1)

/-- Python's `any(...)`: stop at the first truthy operand. -/
def evalAnyWith (ev : Ev) : St → List Expr → Except Err (Expr × St)
  | s, [] => .ok (.pybool false, s)
  | s, e :: rest => do
      let (v, s1) ← ev s e
      if truthy v then .ok (.pybool true, s1) else evalAnyWith ev s1 rest

/-- The body of `Interpreter._handle_list` before its
`except KeyError` clause.  `xs` is bound to the list object (an
address) only when `list_name` is present in `self._lists`; using it
unbound raises Python's `UnboundLocalError` (`pyNameError "xs"`).
Evaluation order follows the source statement by statement, including
that an assignment's right-hand side is evaluated before its target
and that method arguments are evaluated left to right. -/
def handleListCore (ev : Ev) (s : St) (listName function : Option String)
    (index value : Option Expr) : Except Err (Option Expr × St) := do
  let ln ← getField listName
  let addrOpt := alGet? s.lists ln
  let fn ← getField function
  match fn with
  | "empty" =>
      match addrOpt with
      | none => .error (.pyNameError "xs")
      | some a =>
          match s.listHeap.get? a with
          | none => .error .invalidTree
          | some xs => .ok (some (.pybool xs.isEmpty), s)
  | "len" =>
      match addrOpt with
      | none => .error (.pyNameError "xs")
      | some a =>
          match s.listHeap.get? a with
          | none => .error .invalidTree
          | some xs => .ok (some (.num ((xs.length : ℚ))), s)
  | "get" => do
      let iE ← getField index
      let (iv, s1) ← ev s iE
      let i ← pyInt iv
      match addrOpt with
      | none => .error (.pyNameError "xs")
      | some a =>
          match s1.listHeap.get? a with
          | none => .error .invalidTree
          | some xs =>
              match pyIndex xs.length i with
              | none => .error .pyIndexError
              | some j =>
                  match xs.get? j with
                  | none => .error .invalidTree
                  | some x => .ok (some x, s1)
  | "set" => do
      let vE ← getField value
      let (v, s1) ← ev s vE
      match addrOpt with
      | none => .error (.pyNameError "xs")
      | some a => do
          let iE ← getField index
          let i ← pyInt iE
          match s1.listHeap.get? a with
          | none => .error .invalidTree
          | some xs =>
              match pyIndex xs.length i with
              | none => .error .pyIndexError
              | some j =>
                  .ok (none,
                    { s1 with
                      listHeap := s1.listHeap.set a (xs.set j v)
                      lists := alSet s1.lists ln a })
  | "insert" =>
      match addrOpt with
      | none => .error (.pyNameError "xs")
      | some a => do
          let iE ← getField index
          let i ← pyInt iE
          let vE ← getField value
          let (v, s1) ← ev s vE
          match s1.listHeap.get? a with
          | none => .error .invalidTree
          | some xs =>
              let k := pyInsertIdx xs.length i
              .ok (none,
                { s1 with
                  listHeap := s1.listHeap.set a (xs.take k ++ v :: xs.drop k)
                  lists := alSet s1.lists ln a })
  | "remove" =>
      match addrOpt with
      | none => .error (.pyNameError "xs")
      | some a => do
          let iE ← getField index
          let i ← pyInt iE
          match s.listHeap.get? a with
          | none => .error .invalidTree
          | some xs =>
              match pyIndex xs.length i with
              | none => .error .pyIndexError
              | some j =>
                  .ok (none,
                    { s with
                      listHeap := s.listHeap.set a (xs.eraseIdx j)
                      lists := alSet s.lists ln a })
  | "remove_value" =>
      match addrOpt with
      | none => .error (.pyNameError "xs")
      | some a => do
          let vE ← getField value
          let (v, s1) ← ev s vE
          match s1.listHeap.get? a with
          | none => .error .invalidTree
          | some xs =>
              match xs.findIdx? (fun x => pyEq x v) with
              | none => .error .pyValueError
              | some j =>
                  .ok (none,
                    { s1 with
                      listHeap := s1.listHeap.set a (xs.eraseIdx j)
                      lists := alSet s1.lists ln a })
  | _ => .error .invalidCommand

/-- `Interpreter._handle_list` with its `except KeyError` clause, which
turns any `KeyError` raised in the body (in the committed code these
are exactly the missing-field lookups) into
`InterpreterUnboundVariableListError`. -/
def handleList (ev : Ev) (s : St) (listName function : Option String)
    (index value : Option Expr) : Except Err (Option Expr × St) :=
  match handleListCore ev s listName function index value with
  | .error .pyKeyError => .error .unboundVariableList
  | r => r

/-- One layer of `Interpreter._evaluate`, with `ev` the evaluator used
for recursive calls.  Note the source's order for strings: stored
function-argument slots are scanned before the `"true"`/`"false"`
literals and before `self._variables`; and a Python `bool` or `None`
fed back into `_evaluate` matches none of the `isinstance` branches,
falling through to `InterpreterInvalidTreeError`. -/
def evaluateStep (ev : Ev) (s : St) : Expr → Except Err (Expr × St)
  | .num q => .ok (.num q, s)
  | .pybool _ => .error .invalidTree
  | .pynone => .error .invalidTree
  | .str x =>
      match scanFuncArgs s.fuctions x with
      | some v => .ok (v, s)
      | none =>
          if x = "true" then .ok (.pybool true, s)
          else if x = "false" then .ok (.pybool false, s)
          else
            match alGet? s.vars x with
            | some v => .ok (v, s)
            | none => .error (.unboundVariable x)
  | .binop op l r =>
      match op with
      | "+" | "-" | "*" | "/" | "^" | ">" | ">=" | "<" | "<=" | "=" | "<>" => do
          let (a, s1) ← ev s l
          let (b, s2) ← ev s1 r
          let v ← applyBin op a b
          .ok (v, s2)
      | "and" | "or" | "not" => .error .invalidTree
      | _ => .error .invalidCommand
  | .neg e => do
      let (v, s1) ← ev s e
      let q ← toNum v
      .ok (.num (-q), s1)
  | .lnot e => do
      let (v, s1) ← ev s e
      .ok (.pybool (!truthy v), s1)
  | .logic op args =>
      match op with
      | "and" => evalAllWith ev s args
      | "or" => evalAnyWith ev s args
      | "not" => .error .invalidTree
      | _ =>
          if binOps.contains op then .error .invalidTree
          else .error .invalidCommand
  | .listq ln fn ie ve => do
      let (r, s1) ← handleList ev s ln fn ie ve
      .ok (r.getD .pynone, s1)

/-- `Interpreter._handle_func_def`: build the `arguments` dict with
every declared parameter bound to `""`, store the body, and overwrite
any previous entry under the same name. -/
def handleFuncDef (s : St) (funcName : Option String)
    (arguments : Option (List String)) (commands : Option (List Cmd)) :
    Except Err St := do
  let fn ← getField funcName
  let args ← getField arguments
  let cmds ← getField commands
  let argDict := args.foldl (fun d a => alSet d a (.str "")) []
  .ok { s with fuctions := alSet s.fuctions fn ⟨argDict, cmds⟩ }

/-- The binding loop of `_handle_func_call`: evaluate each supplied
argument and store it into the shared function-table entry, so later
argument evaluations (and the whole body) see the stores. -/
def bindArgs (ev : Ev) (fn : String) :
    List String → List Expr → St → Except Err St
  | [], _, s => .ok s
  | _, [], s => .ok s
  | k :: ks, a :: rest, s => do
      let (v, s1) ← ev s a
      bindArgs ev fn ks rest
        { s1 with fuctions := setFuncArg s1.fuctions fn k v }

/-- `Interpreter._handle_func_call`.  A `KeyError` on the function
lookup becomes `UndefinedFunction`; an arity mismatch raises
`InvalidFunctionArguments(expected, received)` with the stored
`arguments` dict's size as `expected`; any error of the body run —
and only of the body run — is wrapped as
`FunctionExecutionError(func_name, cause)`. -/
def handleFuncCall (interp : Interp) (ev : Ev) (funcName : Option String)
    (arguments : Option (List Expr)) (s : St) :
    Except Err (List Out × St) := do
  let fn ← getField funcName
  let args ← getField arguments
  match alGet? s.fuctions fn with
  | none => .error (.undefinedFunction fn)
  | some fd =>
      if fd.arguments.length ≠ args.length then
        .error (.invalidFunctionArguments fn fd.arguments.length args.length)
      else do
        let s1 ← bindArgs ev fn (fd.arguments.map Prod.fst) args s
        match alGet? s1.fuctions fn with
        | none => .error (.undefinedFunction fn)
        | some fd1 =>
            match interp fd1.commands s1 with
            | .error e => .error (.functionExecutionError fn e)
            | .ok r => .ok r

/-- `Interpreter._handle_make`: evaluate the value and store it. -/
def handleMake (ev : Ev) (varName : Option String) (value : Option Expr)
    (s : St) : Except Err St := do
  let vn ← getField varName
  let vE ← getField value
  let (v, s1) ← ev s vE
  .ok { s1 with vars := alSet s1.vars vn v }

/-- The element loop of `_handle_list_make`: for each index of the
original length, read the current element of the (shared, mutable)
list object, evaluate it, and write the result back in place. -/
def evalElemsAt (ev : Ev) (a : Nat) : List Nat → St → Except Err St
  | [], s => .ok s
  | i :: rest, s =>
      match s.listHeap.get? a with
      | none => .error .invalidTree
      | some xs =>
          match xs.get? i with
          | none => .error .pyIndexError
          | some e => do
              let (v, s1) ← ev s e
              match s1.listHeap.get? a with
              | none => .error .invalidTree
              | some xs1 =>
                  evalElemsAt ev a rest
                    { s1 with listHeap := s1.listHeap.set a (xs1.set i v) }

/-- `Interpreter._handle_list_make`: the sentinel `"empty"` allocates a
fresh empty list; otherwise the tree's own literal list object is
evaluated element-by-element in place and stored — still aliased to
the tree — into `self._lists`. -/
def handleListMake (ev : Ev) (listName : Option String)
    (list : Option MakeList) (s : St) : Except Err St := do
  let ln ← getField listName
  let p ← getField list
  match p with
  | .emptyStr =>
      .ok { s with
            listHeap := s.listHeap ++ [[]]
            lists := alSet s.lists ln s.listHeap.length }
  | .addr a =>
      match s.listHeap.get? a with
      | none => .error .invalidTree
      | some xs => do
          let s1 ← evalElemsAt ev a (List.range xs.length) s
          .ok { s1 with lists := alSet s1.lists ln a }

/-- The loop of `_handle_repeat`: re-interpret the body `n` times,
threading the context and concatenating the yields. -/
def repeatLoop (interp : Interp) (cmds : List Cmd) :
    Nat → St → Except Err (List Out × St)
  | 0, s => .ok ([], s)
  | n + 1, s => do
      let (o, s1) ← interp cmds s
      let (rest, s2) ← repeatLoop interp cmds n s1
      .ok (o ++ rest, s2)

/-- `Interpreter._handle_repeat`: evaluate the count, coerce with
`int()`, and loop.  `range` of a nonpositive count is empty, in which
case `command["commands"]` is never read. -/
def handleRepeat (interp : Interp) (ev : Ev) (value : Option Expr)
    (commands : Option (List Cmd)) (s : St) : Except Err (List Out × St) := do
  let vE ← getField value
  let (v, s1) ← ev s vE
  let n ← pyInt v
  if n ≤ 0 then .ok ([], s1)
  else do
    let cmds ← getField commands
    repeatLoop interp cmds n.toNat s1

/-- `Interpreter._handle_if`: the untaken branch's field is never
read. -/
def handleIf (interp : Interp) (ev : Ev) (condition : Option Expr)
    (commands elseCommands : Option (List Cmd)) (s : St) :
    Except Err (List Out × St) := do
  let cE ← getField condition
  let (c, s1) ← ev s cE
  if truthy c then do
    let cmds ← getField commands
    interp cmds s1
  else do
    let ecmds ← getField elseCommands
    interp ecmds s1

/-- `self._colors`, fixed in `Interpreter.__init__`. -/
def colors : List String := ["white", "black", "red", "green", "blue", "cyan"]

/-- `Interpreter._handle_setpencolor`: reject colors outside the
palette, else yield the node unchanged. -/
def handleSetpencolor (color : Option String) (s : St) :
    Except Err (List Out × St) := do
  let c ← getField color
  if colors.contains c then .ok ([.penColor c], s)
  else .error (.invalidColor c colors)

/-- The shared shape of `_handle_movement`, `_handle_setpensize` and
`_handle_print` (three textually identical handlers in the source):
evaluate the value and yield a freshly built
`{"name": ..., "value": ...}` record, leaving the tree node alone. -/
def handleValueYield (ev : Ev) (name : String) (value : Option Expr)
    (s : St) : Except Err (List Out × St) := do
  let vE ← getField value
  let (v, s1) ← ev s vE
  .ok ([.flat name v], s1)

/-- The `setpos` arm of `_interpret`: evaluate `command["x"]` and
overwrite it in the node, then do the same for `command["y"]`, then
yield the node itself (by address — the node stays shared with the
tree). -/
def handleSetpos (ev : Ev) (a : Nat) (s : St) : Except Err (List Out × St) :=
  match s.posHeap.get? a with
  | none => .error .invalidTree
  | some (x, _) => do
      let (xv, s1) ← ev s x
      match s1.posHeap.get? a with
      | none => .error .invalidTree
      | some (_, y) => do
          let s2 : St := { s1 with posHeap := s1.posHeap.set a (xv, y) }
          let (yv, s3) ← ev s2 y
          match s3.posHeap.get? a with
          | none => .error .invalidTree
          | some (x2, _) =>
              .ok ([.setposRef a],
                { s3 with posHeap := s3.posHeap.set a (x2, yv) })

/-- The per-command dispatch of `Interpreter._interpret`'s `match`. -/
def interpretCmd (interp : Interp) (ev : Ev) (c : Cmd) (s : St) :
    Except Err (List Out × St) :=
  match c with
  | .funcDef fn args cmds =>
      (handleFuncDef s fn args cmds).map (fun s1 => ([], s1))
  | .funcCall fn args => handleFuncCall interp ev fn args s
  | .make vn v => (handleMake ev vn v s).map (fun s1 => ([], s1))
  | .listMake ln p => (handleListMake ev ln p s).map (fun s1 => ([], s1))
  | .listOp ln f i v =>
      (handleList ev s ln f i v).map (fun r => ([], r.2))
  | .repeatC v cmds => handleRepeat interp ev v cmds s
  | .ifC c t e => handleIf interp ev c t e s
  | .movement name v => handleValueYield ev name v s
  | .plain name => .ok ([.plain name], s)
  | .setpos a => handleSetpos ev a s
  | .setpencolor c => handleSetpencolor c s
  | .setpensize v => handleValueYield ev "setpensize" v s
  | .printC v => handleValueYield ev "print" v s
  | .unknown _ => .error .invalidCommand

/-- The `for command in commands` loop of `_interpret`, concatenating
what each command yields. -/
def interpretSeq (interp : Interp) (ev : Ev) :
    List Cmd → St → Except Err (List Out × St)
  | [], s => .ok ([], s)
  | c :: rest, s => do
      let (o, s1) ← interpretCmd interp ev c s
      let (o2, s2) ← interpretSeq interp ev rest s1
      .ok (o ++ o2, s2)

/-- `_interpret`'s `except KeyError` clause: a `KeyError` escaping the
loop becomes `InterpreterInvalidTreeError`. -/
def mapKeyErr {α : Type} : Except Err α → Except Err α
  | .error .pyKeyError => .error .invalidTree
  | r => r

/-- One recursion level of the interpreter: the command interpreter and
the expression evaluator. -/
structure Sem where
  interp : Interp
  ev : Ev

/-- Build level `n + 1` of the semantics from level `n`: each nested
call (`_interpret` from a handler, `_evaluate` from anywhere) runs one
stack frame deeper. -/
def semStep (prev : Sem) : Sem :=
  ⟨fun cmds s => mapKeyErr (interpretSeq prev.interp prev.ev cmds s),
   fun s e => evaluateStep prev.ev s e⟩

/-- The fuel tower: at depth 0 every call is Python's
`RecursionError`. -/
def sem : Nat → Sem :=
  @Nat.rec (fun _ => Sem)
    ⟨fun _ _ => .error .recursionError, fun _ _ => .error .recursionError⟩
    (fun _ ih => semStep ih)

/-- `Interpreter._interpret` with a recursion-depth budget. -/
def interpretCmds (fuel : Nat) : Interp := (sem fuel).interp

/-- `Interpreter._evaluate` with a recursion-depth budget. -/
def evaluate (fuel : Nat) : Ev := (sem fuel).ev

/-- A parsed tree handed to `Interpreter.__init__`: the `tokens` list
(`none` models a dict without the key, which raises
`InterpreterInvalidTreeError` in `__init__`) together with the
object graph its nodes own: the literal list objects of `list_make`
nodes and the mutable `x`/`y` fields of `setpos` nodes. -/
structure Tree where
  tokens : Option (List Cmd)
  listHeap : List (List Expr)
  posHeap : List (Expr × Expr)

/-- A fresh execution context for a tree: empty `_variables`,
`_fuctions` and `_lists`, sharing the tree's object graph. -/
def initSt (t : Tree) : St := ⟨[], [], [], t.listHeap, t.posHeap⟩

/-- Construct an `Interpreter` on `t` with a fresh context and drain
its iterator. -/
def runInterpreter (fuel : Nat) (t : Tree) : Except Err (List Out × St) :=
  match t.tokens with
  | none => .error .invalidTree
  | some cmds => interpretCmds fuel cmds (initSt t)

/-- The same tree object after a run: its structure is unchanged, but
its shared object graph carries whatever mutations the run made. -/
def treeAfter (t : Tree) (s : St) : Tree := ⟨t.tokens, s.listHeap, s.posHeap⟩

/-- `interp` run `outs.length` successive times on `cmds`, threading the
context from `s` to `sF`, the i-th run yielding `outs[i]`. -/
def RunsNTimes (interp : Interp) (cmds : List Cmd) :
    St → List (List Out) → St → Prop
  | s, [], sF => sF = s
  | s, o :: rest, sF =>
      ∃ s1, interp cmds s = .ok (o, s1) ∧ RunsNTimes interp cmds s1 rest sF

/-- A program whose observable output depends on the tree's literal
list object: make `L` from the literal `[1 2 3]`, insert `9` at the
front, print `L`'s length. -/
def c1Prog : List Cmd :=
  [ .listMake (some "L") (some (.addr 0)),
    .listOp (some "L") (some "insert") (some (.num 0)) (some (.num 9)),
    .printC (some (.listq (some "L") (some "len") none none)) ]

/-- The tree for `c1Prog`, owning the literal list object `[1, 2, 3]`. -/
def c1Tree : Tree := ⟨some c1Prog, [[.num 1, .num 2, .num 3]], []⟩

/-- The same tree object after the first full interpretation run. -/
def c1After : Tree :=
  match runInterpreter 20 c1Tree with
  | .ok (_, s) => treeAfter c1Tree s
  | .error _ => c1Tree

/-- Body of the recursive function `f(n)`:
`forward n; if n > 1 [f (n - 1)] []; forward n`. -/
def c2Body : List Cmd :=
  [ .movement "forward" (some (.str "n")),
    .ifC (some (.binop ">" (.str "n") (.num 1)))
      (some [.funcCall (some "f") (some [.binop "-" (.str "n") (.num 1)])])
      (some []),
    .movement "forward" (some (.str "n")) ]

/-- `to f :n ... end` followed by the call `f 2`. -/
def c2Tree : Tree :=
  ⟨some [ .funcDef (some "f") (some ["n"]) (some c2Body),
          .funcCall (some "f") (some [.num 2]) ], [], []⟩

/-- A context with a global variable `y = 5` and a *defined but never
called* function `f(y)`, whose argument slot still holds the `""`
placeholder stored by `func_def`. -/
def c2ShadowSt : St :=
  ⟨[("y", .num 5)], [("f", ⟨[("y", .str "")], []⟩)], [], [], []⟩

/-- A completely fresh execution context with no shared objects. -/
def emptySt : St := ⟨[], [], [], [], []⟩

/-- A context with one registered function `f(x)` whose body is empty. -/
def c3St : St := ⟨[], [("f", ⟨[("x", .str "")], []⟩)], [], [], []⟩

/-- `c3St` after binding `x := 1` on the shared entry of `f`. -/
def c3BoundSt : St := ⟨[], [("f", ⟨[("x", .num 1)], []⟩)], [], [], []⟩

/-- A single `list` command (`len` of `L`) with no `list_make` before
it, so `L` is absent from `self._lists`. -/
def c4Tree : Tree := ⟨some [.listOp (some "L") (some "len") none none], [], []⟩

/-- `repeat 3 [forward 10]`. -/
def c5Tree : Tree :=
  ⟨some [.repeatC (some (.num 3))
          (some [.movement "forward" (some (.num 10))])], [], []⟩

/-- `make "x 0  repeat 3 [make "x :x + 1  forward :x]`: each iteration
both observes and extends the previous iteration's mutation. -/
def c5MutTree : Tree :=
  ⟨some [ .make (some "x") (some (.num 0)),
          .repeatC (some (.num 3))
            (some [ .make (some "x") (some (.binop "+" (.str "x") (.num 1))),
                    .movement "forward" (some (.str "x")) ]) ], [], []⟩

/-- The round trip of the spec: make `L` from `[1 2 3]`, print
`get L 1`, insert `9` at 0, print `get L 0`, remove the value `9`,
print `len L`, print `empty L`. -/
def c6Tree : Tree :=
  ⟨some [ .listMake (some "L") (some (.addr 0)),
          .printC (some (.listq (some "L") (some "get") (some (.num 1)) none)),
          .listOp (some "L") (some "insert") (some (.num 0)) (some (.num 9)),
          .printC (some (.listq (some "L") (some "get") (some (.num 0)) none)),
          .listOp (some "L") (some "remove_value") none (some (.num 9)),
          .printC (some (.listq (some "L") (some "len") none none)),
          .printC (some (.listq (some "L") (some "empty") none none)) ],
    [[.num 1, .num 2, .num 3]], []⟩

/-- A context with variables `i = 1`, `x = 20` and a list
`L = [10, 20, 30]`: `i` and `x` resolve through `_evaluate`, but a
raw `int("i")` does not. -/
def c8St : St :=
  ⟨[("i", .num 1), ("x", .num 20)], [], [("L", 0)],
   [[.num 10, .num 20, .num 30]], []⟩

/-- A `list`-tagged node lacking every required field. -/
def c9ListTree : Tree := ⟨some [.listOp none none none none], [], []⟩

/-- A context whose `_lists` binds `L` to the empty list object at
address 0, used to reach the index/value field reads of the mutating
list operations. -/
def c9ListSt : St := ⟨[], [], [("L", 0)], [[]], []⟩

/-- A tree whose single command is `setpos` with the non-literal
`x = 1 + 2` and literal `y = 4`. -/
def c10Tree : Tree := ⟨some [.setpos 0], [], [(.binop "+" (.num 1) (.num 2), .num 4)]⟩

/-- The context after running `c10Tree`: the node's `x` field has been
overwritten with the evaluated `3`. -/
def c10FinalSt : St := ⟨[], [], [], [], [(.num 3, .num 4)]⟩

/-- Chaining `RunsNTimes` is exactly what `repeatLoop` computes. -/
theorem runsNTimes_repeatLoop (interp : Interp) (cmds : List Cmd) :
    ∀ (outs : List (List Out)) (s sF : St),
      RunsNTimes interp cmds s outs sF →
      repeatLoop interp cmds outs.length s = .ok (outs.flatten, sF) := by
  intro outs
  induction outs with
  | nil => intro s sF h; simp [RunsNTimes] at h; simp [repeatLoop, h]
  | cons o rest ih =>
      intro s sF h
      simp only [RunsNTimes] at h
      obtain ⟨s1, h1, h2⟩ := h
      simp [repeatLoop, h1, ih s1 sF h2, bind, Except.bind]

/-- Unfolding one recursion level of `_interpret`: run the command loop
with the one-level-deeper interpreter and evaluator, converting an
escaping `KeyError` to `InvalidTree`. -/
theorem interpretCmds_succ (f : Nat) (cmds : List Cmd) (s : St) :
    interpretCmds (f + 1) cmds s
      = mapKeyErr (interpretSeq (interpretCmds f) (evaluate f) cmds s) := rfl

/-- Unfolding one recursion level of `_evaluate`. -/
theorem evaluate_succ (f : Nat) (s : St) (e : Expr) :
    evaluate (f + 1) s e = evaluateStep (evaluate f) s e := rfl

/-- C1: two full interpretation runs over the same tree with fresh,
separate contexts are NOT isolated.  `_handle_list_make` stores the
tree's literal list object itself into `self._lists` and the list
operations mutate it in place, so the first run's `insert` is visible
to the second run through the shared tree: the first run prints a
length of 4, a repeat of it on the same (now mutated) tree prints 5.
The claim, which requires the second run to behave as if the first
had never executed, is therefore false of the code. -/
theorem c1_two_runs_share_tree_mutations :
    (runInterpreter 20 c1Tree).map Prod.fst
        = .ok [.flat "print" (.num 4)] ∧
    (runInterpreter 20 c1After).map Prod.fst
        = .ok [.flat "print" (.num 5)] ∧
    (Except.ok [Out.flat "print" (.num 5)] : Except Err (List Out))
        ≠ .ok [.flat "print" (.num 4)] := by
  refine ⟨by with_unfolding_all rfl, by with_unfolding_all rfl, ?_⟩
  intro h
  simp only [Except.ok.injEq, List.cons.injEq, Out.flat.injEq,
    Expr.num.injEq, and_true, true_and] at h
  norm_num at h

/-- C2: identifier resolution and argument binding are NOT
per-invocation.  `_handle_func_call` stores argument values on the
shared `self._fuctions[func_name]["arguments"]` entry and `_evaluate`
scans every function's stored slots, so (a) the recursive program
`to f :n  fd :n  if :n > 1 [f :n - 1]  fd :n  end  f 2` yields
`forward 2, forward 1, forward 1, forward 1` — the inner call clobbers
the outer call's binding of `n`, whose final read should have given 2 —
and (b) a defined but never called function `f(y)` makes the bare
identifier `y` resolve to the stored `""` placeholder even though a
global variable `y = 5` exists. -/
theorem c2_shared_binding_clobbered :
    (runInterpreter 20 c2Tree).map Prod.fst
        = .ok [.flat "forward" (.num 2), .flat "forward" (.num 1),
               .flat "forward" (.num 1), .flat "forward" (.num 1)] ∧
    evaluate 3 c2ShadowSt (.str "y") = .ok (.str "", c2ShadowSt) ∧
    (Expr.str "" ≠ .num 5) ∧ (Expr.num 1 ≠ .num 2) := by
  refine ⟨by with_unfolding_all rfl, rfl, by simp, ?_⟩
  simp only [ne_eq, Expr.num.injEq]
  norm_num

/-- C4: a `list` command whose `list_name` is not in `self._lists` does
NOT fail with `UnboundVariableList`.  The `if command["list_name"] in
self._lists` guard means no `KeyError` is raised for an absent list;
instead the local `xs` stays unbound and its first use raises Python's
`UnboundLocalError`, which the `except KeyError` clause does not
catch. -/
theorem c4_unbound_list_leaks_name_error :
    runInterpreter 5 c4Tree = .error (.pyNameError "xs") ∧
    Err.pyNameError "xs" ≠ .unboundVariableList := ⟨rfl, by decide⟩

/-- C9 counterexample: a `list`-tagged node lacking its required fields
fails with `UnboundVariableList`, not with `InvalidTree` as the claim
states, because `_handle_list`'s own `except KeyError` clause
intercepts the missing-field `KeyError` before `_interpret`'s. -/
theorem c9_missing_list_field_not_invalid_tree :
    runInterpreter 5 c9ListTree = .error .unboundVariableList ∧
    Err.unboundVariableList ≠ .invalidTree := ⟨rfl, by decide⟩

/-- C9 amended: a tree lacking the top-level `tokens` sequence fails
with `InvalidTree`; a node with an unrecognized tag fails with
`InvalidCommand`; and a node lacking a field required by its tag fails
with `InvalidTree` whenever execution reaches that field's read
without an earlier failure — except a `list`-tagged node, whose
missing-field `KeyError` is intercepted by `_handle_list`'s own
`except` clause and surfaces as `UnboundVariableList`.  This holds
field by field, including a `setpos` node whose field cell is absent.
A required field whose read is skipped goes undetected — a `repeat`
lacking `commands` succeeds when its count is 0, and an `if` lacking
the untaken branch's field succeeds — and an earlier failure of the
node preempts the missing-field error, as when an unbound count
variable fails before the absent `commands` of a `repeat` is
noticed. -/
theorem c9_missing_fields_amended :
    (∀ (f : Nat) (lh : List (List Expr)) (ph : List (Expr × Expr)),
        runInterpreter f ⟨none, lh, ph⟩ = .error .invalidTree) ∧
    (∀ (f : Nat) (s : St) (name : String),
        interpretCmds (f + 1) [.unknown name] s = .error .invalidCommand) ∧
    (∀ (f : Nat) (s : St),
        interpretCmds (f + 1) [.funcDef none (some []) (some [])] s
            = .error .invalidTree ∧
        interpretCmds (f + 1) [.funcDef (some "f") none (some [])] s
            = .error .invalidTree ∧
        interpretCmds (f + 1) [.funcDef (some "f") (some []) none] s
            = .error .invalidTree ∧
        interpretCmds (f + 1) [.funcCall none (some [])] s
            = .error .invalidTree ∧
        interpretCmds (f + 1) [.funcCall (some "f") none] s
            = .error .invalidTree ∧
        interpretCmds (f + 1) [.make none (some (.num 0))] s
            = .error .invalidTree ∧
        interpretCmds (f + 1) [.make (some "x") none] s
            = .error .invalidTree ∧
        interpretCmds (f + 1) [.listMake none (some .emptyStr)] s
            = .error .invalidTree ∧
        interpretCmds (f + 1) [.listMake (some "L") none] s
            = .error .invalidTree ∧
        interpretCmds (f + 1) [.repeatC none (some [])] s
            = .error .invalidTree ∧
        interpretCmds (f + 1) [.ifC none (some []) (some [])] s
            = .error .invalidTree ∧
        (∀ name, interpretCmds (f + 1) [.movement name none] s
            = .error .invalidTree) ∧
        interpretCmds (f + 1) [.setpencolor none] s = .error .invalidTree ∧
        interpretCmds (f + 1) [.setpensize none] s = .error .invalidTree ∧
        interpretCmds (f + 1) [.printC none] s = .error .invalidTree) ∧
    (∀ (f : Nat) (s : St),
        interpretCmds (f + 2) [.repeatC (some (.num 1)) none] s
            = .error .invalidTree ∧
        interpretCmds (f + 2) [.ifC (some (.num 1)) none (some [])] s
            = .error .invalidTree ∧
        interpretCmds (f + 2) [.ifC (some (.num 0)) (some []) none] s
            = .error .invalidTree) ∧
    (∀ (f : Nat) (s : St),
        interpretCmds (f + 1) [.listOp none (some "len") none none] s
            = .error .unboundVariableList ∧
        interpretCmds (f + 1) [.listOp (some "L") none none none] s
            = .error .unboundVariableList ∧
        interpretCmds (f + 1) [.listOp (some "L") (some "get") none none] s
            = .error .unboundVariableList ∧
        interpretCmds (f + 1) [.listOp (some "L") (some "set") none none] s
            = .error .unboundVariableList) ∧
    (∀ (f : Nat) (s : St) (a : Nat),
        alGet? s.lists "L" = some a →
        interpretCmds (f + 2)
            [.listOp (some "L") (some "set") none (some (.num 0))] s
            = .error .unboundVariableList ∧
        interpretCmds (f + 1)
            [.listOp (some "L") (some "insert") none none] s
            = .error .unboundVariableList ∧
        interpretCmds (f + 1)
            [.listOp (some "L") (some "insert") (some (.num 0)) none] s
            = .error .unboundVariableList ∧
        interpretCmds (f + 1)
            [.listOp (some "L") (some "remove") none none] s
            = .error .unboundVariableList ∧
        interpretCmds (f + 1)
            [.listOp (some "L") (some "remove_value") none none] s
            = .error .unboundVariableList) ∧
    (∀ (f : Nat) (s : St) (a : Nat),
        s.posHeap.get? a = none →
        interpretCmds (f + 1) [.setpos a] s = .error .invalidTree) ∧
    (∀ (f : Nat) (s : St),
        interpretCmds (f + 2) [.repeatC (some (.num 0)) none] s
            = .ok ([], s) ∧
        interpretCmds (f + 2) [.ifC (some (.num 1)) (some []) none] s
            = .ok ([], s) ∧
        interpretCmds (f + 2) [.ifC (some (.num 0)) none (some [])] s
            = .ok ([], s)) ∧
    (∀ (f : Nat),
        interpretCmds (f + 2) [.repeatC (some (.str "zzz")) none] emptySt
            = .error (.unboundVariable "zzz")) := by
  refine ⟨?_, ?_, ?_, ?_, ?_, ?_, ?_, ?_, ?_⟩
  · intro f lh ph; rfl
  · intro f s name; rfl
  · intro f s
    exact ⟨rfl, rfl, rfl, rfl, rfl, rfl, rfl, rfl, rfl, rfl, rfl,
      fun _ => rfl, rfl, rfl, rfl⟩
  · intro f s
    exact ⟨by with_unfolding_all rfl, by with_unfolding_all rfl,
      by with_unfolding_all rfl⟩
  · intro f s
    exact ⟨rfl, rfl, rfl, rfl⟩
  · intro f s a h
    refine ⟨?_, ?_, ?_, ?_, ?_⟩ <;>
      (simp only [interpretCmds_succ, evaluate_succ, interpretSeq,
        interpretCmd, handleList, handleListCore, evaluateStep, getField,
        bind, Except.bind, h, mapKeyErr, truncInt, pyInt] <;> rfl)
  · intro f s a h
    simp only [interpretCmds_succ, interpretSeq, interpretCmd,
      handleSetpos, h, bind, Except.bind, mapKeyErr]
  · intro f s
    exact ⟨by with_unfolding_all rfl, by with_unfolding_all rfl,
      by with_unfolding_all rfl⟩
  · intro f
    with_unfolding_all rfl

/-- C9 amended witness: the hypothesis-carrying cases at concrete
inputs — the mutating list operations with a bound `L` and a `setpos`
node with no field cell. -/
theorem c9_missing_fields_amended_witness :
    interpretCmds 2 [.listOp (some "L") (some "set") none (some (.num 0))]
        c9ListSt = .error .unboundVariableList ∧
    interpretCmds 1 [.listOp (some "L") (some "insert") none none]
        c9ListSt = .error .unboundVariableList ∧
    interpretCmds 1 [.listOp (some "L") (some "insert") (some (.num 0))
        none] c9ListSt = .error .unboundVariableList ∧
    interpretCmds 1 [.listOp (some "L") (some "remove") none none]
        c9ListSt = .error .unboundVariableList ∧
    interpretCmds 1 [.listOp (some "L") (some "remove_value") none none]
        c9ListSt = .error .unboundVariableList ∧
    interpretCmds 1 [.setpos 0] emptySt = .error .invalidTree := by
  have h1 := c9_missing_fields_amended.2.2.2.2.2.1 0 c9ListSt 0 rfl
  have h2 := c9_missing_fields_amended.2.2.2.2.2.2.1 0 emptySt 0 rfl
  exact ⟨h1.1, h1.2.1, h1.2.2.1, h1.2.2.2.1, h1.2.2.2.2, h2⟩

/-- C3: `func_call` error behavior.  An unregistered name fails with
`UndefinedFunction(name)`; a registered name with an argument count
different from the stored parameter count fails with
`InvalidFunctionArguments(name, expected, received)`; and any error of
interpreting the body — after the arguments have been bound — is
re-raised as `FunctionExecutionError(name, cause)`, preserving the
inner error. -/
theorem c3_func_call_errors :
    (∀ (interp : Interp) (ev : Ev) (s : St) (fn : String) (args : List Expr),
        alGet? s.fuctions fn = none →
        handleFuncCall interp ev (some fn) (some args) s
          = .error (.undefinedFunction fn)) ∧
    (∀ (interp : Interp) (ev : Ev) (s : St) (fn : String) (args : List Expr)
        (fd : FuncData),
        alGet? s.fuctions fn = some fd →
        fd.arguments.length ≠ args.length →
        handleFuncCall interp ev (some fn) (some args) s
          = .error (.invalidFunctionArguments fn fd.arguments.length
              args.length)) ∧
    (∀ (interp : Interp) (ev : Ev) (s s1 : St) (fn : String)
        (args : List Expr) (fd fd1 : FuncData) (e : Err),
        alGet? s.fuctions fn = some fd →
        fd.arguments.length = args.length →
        bindArgs ev fn (fd.arguments.map Prod.fst) args s = .ok s1 →
        alGet? s1.fuctions fn = some fd1 →
        interp fd1.commands s1 = .error e →
        handleFuncCall interp ev (some fn) (some args) s
          = .error (.functionExecutionError fn e)) := by
  refine ⟨?_, ?_, ?_⟩
  · intro interp ev s fn args h
    simp [handleFuncCall, getField, bind, Except.bind, h]
  · intro interp ev s fn args fd h hne
    simp [handleFuncCall, getField, bind, Except.bind, h, hne]
  · intro interp ev s s1 fn args fd fd1 e h hlen hbind h1 hrun
    simp [handleFuncCall, getField, bind, Except.bind, h, hlen, hbind, h1,
      hrun]

/-- C3 witness: the three error shapes at concrete inputs — calling the
unregistered `g`, calling `f(x)` with no arguments, and calling
`f(x)` with one argument while its (empty) body is interpreted by a
run that fails with `InvalidTree`. -/
theorem c3_func_call_errors_witness :
    handleFuncCall (interpretCmds 3) (evaluate 3) (some "g") (some [])
        c3St = .error (.undefinedFunction "g") ∧
    handleFuncCall (interpretCmds 3) (evaluate 3) (some "f") (some [])
        c3St = .error (.invalidFunctionArguments "f" 1 0) ∧
    handleFuncCall (fun _ _ => .error .invalidTree) (evaluate 3) (some "f")
        (some [.num 1]) c3St
        = .error (.functionExecutionError "f" .invalidTree) :=
  ⟨c3_func_call_errors.1 (interpretCmds 3) (evaluate 3) c3St "g" [] rfl,
   c3_func_call_errors.2.1 (interpretCmds 3) (evaluate 3) c3St "f" []
     ⟨[("x", .str "")], []⟩ rfl (by decide),
   c3_func_call_errors.2.2 (fun _ _ => .error .invalidTree) (evaluate 3)
     c3St c3BoundSt "f" [.num 1] ⟨[("x", .str "")], []⟩
     ⟨[("x", .num 1)], []⟩ .invalidTree rfl rfl rfl rfl rfl⟩

/-- C5: `repeat` with a count that coerces to an integer `n ≥ 0` yields
exactly the concatenation of `n` successive interpretations of the
body, threading one and the same execution context through the
iterations; in particular `repeat 3 [forward 10]` yields exactly three
`forward 10` commands, and a body that increments `x` and walks by it
yields `forward 1, forward 2, forward 3` — each iteration seeing the
previous one's mutation. -/
theorem c5_repeat_concatenates :
    (∀ (interp : Interp) (ev : Ev) (s s1 sF : St) (vE v : Expr)
        (cmds : List Cmd) (n : Int) (outs : List (List Out)),
        ev s vE = .ok (v, s1) →
        pyInt v = .ok n →
        0 ≤ n →
        outs.length = n.toNat →
        RunsNTimes interp cmds s1 outs sF →
        handleRepeat interp ev (some vE) (some cmds) s
          = .ok (outs.flatten, sF)) ∧
    (runInterpreter 10 c5Tree).map Prod.fst
        = .ok [.flat "forward" (.num 10), .flat "forward" (.num 10),
               .flat "forward" (.num 10)] ∧
    (runInterpreter 10 c5MutTree).map Prod.fst
        = .ok [.flat "forward" (.num 1), .flat "forward" (.num 2),
               .flat "forward" (.num 3)] := by
  refine ⟨?_, by with_unfolding_all rfl, by with_unfolding_all rfl⟩
  intro interp ev s s1 sF vE v cmds n outs hev hn h0 hlen hruns
  simp only [handleRepeat, getField, bind, Except.bind, hev, hn]
  by_cases hle : n ≤ 0
  · have hn0 : n = 0 := le_antisymm hle h0
    subst hn0
    have houts : outs = [] := List.length_eq_zero.mp (by simpa using hlen)
    subst houts
    simp only [RunsNTimes] at hruns
    subst hruns
    simp
  · simp only [if_neg hle]
    rw [← hlen]
    exact runsNTimes_repeatLoop interp cmds outs s1 sF hruns

/-- C5 witness: repeating twice with an interpreter that yields one
`penup` per run concatenates the two runs' yields. -/
theorem c5_repeat_concatenates_witness :
    handleRepeat (fun _ s => .ok ([.plain "penup"], s)) (evaluate 1)
        (some (.num 2)) (some []) emptySt
      = .ok ([.plain "penup", .plain "penup"], emptySt) := by
  have h := c5_repeat_concatenates.1 (fun _ s => .ok ([.plain "penup"], s))
    (evaluate 1) emptySt emptySt emptySt (.num 2) (.num 2) [] 2
    [[.plain "penup"], [.plain "penup"]] rfl rfl (by decide) rfl
    ⟨emptySt, rfl, emptySt, rfl, rfl⟩
  simpa using h

/-- C6: the list round trip.  The program `list_make "L [1 2 3]`,
`get L 1`, `insert L 0 9`, `get L 0`, `remove_value L 9`, `len L`,
`empty L` prints `2, 9, 3, false`; and for every reachable list, the
`empty` query answers `True` exactly when the `len` query answers
`0`. -/
theorem c6_list_round_trip :
    (runInterpreter 10 c6Tree).map Prod.fst
        = .ok [.flat "print" (.num 2), .flat "print" (.num 9),
               .flat "print" (.num 3), .flat "print" (.pybool false)] ∧
    (∀ (ev : Ev) (s : St) (ln : String) (a : Nat) (xs : List Expr),
        alGet? s.lists ln = some a →
        s.listHeap.get? a = some xs →
        (handleList ev s (some ln) (some "empty") none none
            = .ok (some (.pybool true), s) ↔
         handleList ev s (some ln) (some "len") none none
            = .ok (some (.num 0), s))) := by
  refine ⟨by with_unfolding_all rfl, ?_⟩
  intro ev s ln a xs h1 h2
  simp only [handleList, handleListCore, getField, bind, Except.bind, h1, h2]
  cases xs with
  | nil => simp
  | cons x rest =>
      simp
      exact_mod_cast Nat.succ_ne_zero rest.length

/-- C6 witness: the general `empty`-iff-`len`-zero equivalence applied
to the concrete singleton list `[10]` of `c8St`. -/
theorem c6_list_round_trip_witness :
    (handleList (evaluate 1) c8St (some "L") (some "empty") none none
        = .ok (some (.pybool true), c8St) ↔
     handleList (evaluate 1) c8St (some "L") (some "len") none none
        = .ok (some (.num 0), c8St)) :=
  c6_list_round_trip.2 (evaluate 1) c8St "L" 0
    [.num 10, .num 20, .num 30] rfl rfl

/-- C7: `setpencolor` fails with `InvalidColor(color, palette)` exactly
when the color is outside the fixed palette
`white, black, red, green, blue, cyan`; otherwise the node is yielded
unchanged and the context is untouched. -/
theorem c7_setpencolor_palette :
    ∀ (interp : Interp) (ev : Ev) (s : St) (c : String),
      (interpretCmd interp ev (.setpencolor (some c)) s
          = .error (.invalidColor c colors) ↔ colors.contains c = false) ∧
      (colors.contains c = true →
          interpretCmd interp ev (.setpencolor (some c)) s
            = .ok ([.penColor c], s)) := by
  intro interp ev s c
  by_cases h : colors.contains c = true
  · have hmem : c ∈ colors := by simpa using h
    constructor
    · simp [interpretCmd, handleSetpencolor, getField, bind, Except.bind, h,
        hmem]
    · intro _
      simp [interpretCmd, handleSetpencolor, getField, bind, Except.bind, h,
        hmem]
  · have hmem : c ∉ colors := by simpa using h
    rw [Bool.not_eq_true] at h
    constructor
    · simp [interpretCmd, handleSetpencolor, getField, bind, Except.bind, h,
        hmem]
    · intro hc
      rw [hc] at h
      cases h

/-- C7 witness: `setpencolor "red` yields unchanged; `setpencolor
"purple` fails with `InvalidColor` carrying the palette. -/
theorem c7_setpencolor_palette_witness :
    interpretCmd (interpretCmds 1) (evaluate 1)
        (.setpencolor (some "red")) emptySt
      = .ok ([.penColor "red"], emptySt) ∧
    interpretCmd (interpretCmds 1) (evaluate 1)
        (.setpencolor (some "purple")) emptySt
      = .error (.invalidColor "purple" colors) :=
  ⟨(c7_setpencolor_palette (interpretCmds 1) (evaluate 1) emptySt "red").2
      rfl,
   (c7_setpencolor_palette (interpretCmds 1) (evaluate 1) emptySt
      "purple").1.mpr rfl⟩

/-- C8: the index asymmetry of `_handle_list`.  For `set`, `insert` and
`remove` the `index` field only ever enters through the raw
`int(command["index"])` coercion — two index expressions with the same
`int()` image are indistinguishable, whatever the evaluator and
context, so the index is never passed through `_evaluate` — while
`get` evaluates its index through `_evaluate` (the bound variable `i`
resolves to `1` and fetches element 1) and `set` on the very same
context fails with `ValueError` on `int("i")`; `remove_value`
evaluates its value operand (`x` resolves to `20`, which is removed),
and in the mutating `set` only the value operand is evaluated (`i`
resolves to `1` and is stored). -/
theorem c8_index_evaluation_asymmetry :
    (∀ (ev : Ev) (s : St) (lnO : Option String) (iE1 iE2 : Expr)
        (vO : Option Expr),
        pyInt iE1 = pyInt iE2 →
        handleList ev s lnO (some "set") (some iE1) vO
          = handleList ev s lnO (some "set") (some iE2) vO ∧
        handleList ev s lnO (some "insert") (some iE1) vO
          = handleList ev s lnO (some "insert") (some iE2) vO ∧
        handleList ev s lnO (some "remove") (some iE1) vO
          = handleList ev s lnO (some "remove") (some iE2) vO) ∧
    handleList (evaluate 5) c8St (some "L") (some "get") (some (.str "i"))
        none = .ok (some (.num 20), c8St) ∧
    handleList (evaluate 5) c8St (some "L") (some "set") (some (.str "i"))
        (some (.num 7)) = .error .pyValueError ∧
    handleList (evaluate 5) c8St (some "L") (some "set") (some (.num 0))
        (some (.str "i"))
      = .ok (none, ⟨[("i", .num 1), ("x", .num 20)], [], [("L", 0)],
          [[.num 1, .num 20, .num 30]], []⟩) ∧
    handleList (evaluate 5) c8St (some "L") (some "remove_value") none
        (some (.str "x"))
      = .ok (none, ⟨[("i", .num 1), ("x", .num 20)], [], [("L", 0)],
          [[.num 10, .num 30]], []⟩) := by
  refine ⟨?_, by with_unfolding_all rfl, by with_unfolding_all rfl,
    by with_unfolding_all rfl, by with_unfolding_all rfl⟩
  intro ev s lnO iE1 iE2 vO h
  refine ⟨?_, ?_, ?_⟩ <;>
    simp only [handleList, handleListCore, getField, bind, Except.bind, h]

/-- C8 witness: the raw-`int()` index invariance applied to the index
expressions `1.0` and `"1"`, which `int()` both takes to 1. -/
theorem c8_index_evaluation_asymmetry_witness :
    (handleList (evaluate 1) c8St (some "L") (some "set") (some (.num 1))
        (some (.num 7))
      = handleList (evaluate 1) c8St (some "L") (some "set")
          (some (.str "1")) (some (.num 7))) ∧
    (handleList (evaluate 1) c8St (some "L") (some "insert") (some (.num 1))
        (some (.num 7))
      = handleList (evaluate 1) c8St (some "L") (some "insert")
          (some (.str "1")) (some (.num 7))) ∧
    (handleList (evaluate 1) c8St (some "L") (some "remove") (some (.num 1))
        none
      = handleList (evaluate 1) c8St (some "L") (some "remove")
          (some (.str "1")) none) := by
  have h := c8_index_evaluation_asymmetry.1 (evaluate 1) c8St (some "L")
    (.num 1) (.str "1")
  exact ⟨(h (some (.num 7)) (by with_unfolding_all rfl)).1,
    (h (some (.num 7)) (by with_unfolding_all rfl)).2.1,
    (h none (by with_unfolding_all rfl)).2.2⟩

/-- C10: `setpos` evaluates `x` and `y`, writes the results back into
the tree node's own fields, and yields that same node, while the
movement, `setpensize` and `print` handlers yield freshly built
`{name, value}` records and change nothing beyond what evaluating the
operand itself does; consequently the concrete tree whose `setpos`
node has the non-literal `x = 1 + 2` does not survive interpretation
unchanged. -/
theorem c10_setpos_mutates_tree :
    (∀ (interp : Interp) (ev : Ev) (s s1 : St) (name : String) (vE v : Expr),
        ev s vE = .ok (v, s1) →
        interpretCmd interp ev (.movement name (some vE)) s
            = .ok ([.flat name v], s1) ∧
        interpretCmd interp ev (.setpensize (some vE)) s
            = .ok ([.flat "setpensize" v], s1) ∧
        interpretCmd interp ev (.printC (some vE)) s
            = .ok ([.flat "print" v], s1)) ∧
    (∀ (ev : Ev) (s s1 s2 : St) (a : Nat) (x y xv yv : Expr),
        s.posHeap.get? a = some (x, y) →
        ev s x = .ok (xv, s1) →
        s1.posHeap = s.posHeap →
        ev { s1 with posHeap := s1.posHeap.set a (xv, y) } y
            = .ok (yv, s2) →
        s2.posHeap = s1.posHeap.set a (xv, y) →
        handleSetpos ev a s
          = .ok ([.setposRef a],
              { s2 with posHeap := s2.posHeap.set a (xv, yv) })) ∧
    runInterpreter 5 c10Tree = .ok ([.setposRef 0], c10FinalSt) ∧
    treeAfter c10Tree c10FinalSt ≠ c10Tree := by
  refine ⟨?_, ?_, by with_unfolding_all rfl, ?_⟩
  · intro interp ev s s1 name vE v hev
    refine ⟨?_, ?_, ?_⟩ <;>
      simp [interpretCmd, handleValueYield, getField, bind, Except.bind, hev]
  · intro ev s s1 s2 a x y xv yv hget hev1 hp1 hev2 hp2
    have ha : a < s.posHeap.length := by
      rcases List.get?_eq_some.mp hget with ⟨h, _⟩
      exact h
    rw [hp1] at hev2 hp2
    simp only [handleSetpos, hget, bind, Except.bind, hev1, hp1, hev2, hp2,
      List.get?_set_eq_of_lt _ ha]
  · intro h
    simp only [treeAfter, c10Tree, c10FinalSt, Tree.mk.injEq,
      List.cons.injEq, Prod.mk.injEq, and_true, true_and] at h
    exact Expr.noConfusion h

/-- C10 witness: the fresh-record conclusion at `forward 7`, and the
`setpos` field overwrite on a node holding literal `(1, 2)`. -/
theorem c10_setpos_mutates_tree_witness :
    interpretCmd (interpretCmds 1) (evaluate 1)
        (.movement "forward" (some (.num 7))) emptySt
      = .ok ([.flat "forward" (.num 7)], emptySt) ∧
    handleSetpos (evaluate 1) 0 ⟨[], [], [], [], [(.num 1, .num 2)]⟩
      = .ok ([.setposRef 0], ⟨[], [], [], [], [(.num 1, .num 2)]⟩) := by
  constructor
  · exact (c10_setpos_mutates_tree.1 (interpretCmds 1) (evaluate 1) emptySt
      emptySt "forward" (.num 7) (.num 7) rfl).1
  · have h := c10_setpos_mutates_tree.2.1 (evaluate 1)
      ⟨[], [], [], [], [(.num 1, .num 2)]⟩
      ⟨[], [], [], [], [(.num 1, .num 2)]⟩
      ⟨[], [], [], [], [(.num 1, .num 2)]⟩ 0
      (.num 1) (.num 2) (.num 1) (.num 2) rfl rfl rfl rfl rfl
    simpa using h

end PyLogo
